import Mathlib

/-!
Shallow embedding of the video-resolution core of `download_service.py`
(classes `BaseDownloader`, `YouTubeDownloader`, `TikTokDownloader`,
`VKDownloader`, `RutubeDownloader`, `Downloader`).

Conventions of the embedding:
* Python values of unknown shape (fields of the raw metadata dictionaries
  returned by the extraction backend) are modelled by `PyVal`.
* Python floats are modelled by `PyFloat`: a finite float is an exact
  fraction `num / den` (string parsing only ever produces decimal
  fractions), plus the special values `inf`, `neginf`, `nan`.
* A raw metadata dictionary is modelled as a record of `Option`-valued
  fields: `Option.none` means the key is absent, so `d.get(k, v)` becomes
  `field.getD v` and `k in d` becomes `field.isSome`.
* Raising code returns `Except PyExn`; an `except (A, B)` handler is a
  `match` on the error constructors it catches.
* `datetime.now()` timestamps are integers (seconds); the five-minute
  TTL `timedelta(minutes=5)` is the constant `300`.
-/

/-- Model of a Python float: an exact decimal fraction or a special value. -/
inductive PyFloat where
  | finite (num : Int) (den : Nat)
  | inf
  | neginf
  | nan
deriving DecidableEq

/-- Model of a loosely typed Python value, as found in raw metadata fields. -/
inductive PyVal where
  | none
  | str (s : String)
  | int (n : Int)
  | float (f : PyFloat)
  | other
deriving DecidableEq

/-- The Python exceptions the embedded code can raise or catch. -/
inductive PyExn where
  | valueError
  | typeError
  | overflowError
  | keyError
  | videoDownloadError (msg : String)
deriving DecidableEq

/-- Decidable equality of `Except` results, used to evaluate the embedding
on concrete inputs. -/
instance exceptDecidableEq {ε α : Type} [DecidableEq ε] [DecidableEq α] :
    DecidableEq (Except ε α)
  | Except.error e, Except.error e' =>
      match decEq e e' with
      | isTrue h => isTrue (congrArg Except.error h)
      | isFalse h => isFalse (fun hh => h (Except.error.inj hh))
  | Except.error _, Except.ok _ => isFalse (fun hh => Except.noConfusion hh)
  | Except.ok _, Except.error _ => isFalse (fun hh => Except.noConfusion hh)
  | Except.ok a, Except.ok a' =>
      match decEq a a' with
      | isTrue h => isTrue (congrArg Except.ok h)
      | isFalse h => isFalse (fun hh => h (Except.ok.inj hh))

/-- Characters treated as whitespace by `str.strip` / `float()` parsing. -/
def isSpaceChar (c : Char) : Bool :=
  c = ' ' || c = '\t' || c = '\n' || c = '\r' || c = Char.ofNat 11 || c = Char.ofNat 12

/-- Strip leading and trailing whitespace (as Python `float()` does). -/
def pyStrip (cs : List Char) : List Char :=
  ((cs.dropWhile isSpaceChar).reverse.dropWhile isSpaceChar).reverse

/-- ASCII lower-casing of one character. -/
def lowerChar (c : Char) : Char :=
  if 'A' ≤ c && c ≤ 'Z' then Char.ofNat (c.toNat + 32) else c

/-- Value of a string of decimal digits. -/
def digitsVal (cs : List Char) : Nat :=
  cs.foldl (fun a c => a * 10 + (c.toNat - 48)) 0

/-- Parse an unsigned decimal float body: digits with an optional fractional
part, as accepted by Python `float()` (exponents and underscores, which no
claim touches, are not modelled). -/
def parseUnsignedFloat (cs : List Char) : Option PyFloat :=
  let ip := cs.takeWhile Char.isDigit
  let rest := cs.dropWhile Char.isDigit
  match rest with
  | [] =>
      if ip.isEmpty then Option.none
      else some (PyFloat.finite (Int.ofNat (digitsVal ip)) 1)
  | '.' :: fr =>
      if fr.all Char.isDigit && !(ip.isEmpty && fr.isEmpty) then
        some (PyFloat.finite
          (Int.ofNat (digitsVal ip * 10 ^ fr.length + digitsVal fr))
          (10 ^ fr.length))
      else Option.none
  | _ => Option.none

/-- Embedding of Python `float(s)` on strings: `Option.none` models the
`ValueError` raised on an unparsable string. -/
def pyFloatOfString (s : String) : Option PyFloat :=
  let cs := (pyStrip s.toList).map lowerChar
  let signed : Bool × List Char :=
    match cs with
    | '-' :: r => (true, r)
    | '+' :: r => (false, r)
    | r => (false, r)
  let core : Option PyFloat :=
    if signed.2 = ['i', 'n', 'f'] || signed.2 = ['i', 'n', 'f', 'i', 'n', 'i', 't', 'y'] then
      some PyFloat.inf
    else if signed.2 = ['n', 'a', 'n'] then some PyFloat.nan
    else parseUnsignedFloat signed.2
  match core with
  | some (PyFloat.finite n d) => some (PyFloat.finite (if signed.1 then -n else n) d)
  | some PyFloat.inf => some (if signed.1 then PyFloat.neginf else PyFloat.inf)
  | some PyFloat.neginf => some PyFloat.neginf
  | some PyFloat.nan => some PyFloat.nan
  | Option.none => Option.none

/-- Embedding of Python `int(f)` on a float: truncation toward zero for a
finite float, `ValueError` for `nan`, `OverflowError` for an infinity. -/
def pyIntOfFloat (f : PyFloat) : Except PyExn Int :=
  match f with
  | PyFloat.finite n d => Except.ok (Int.tdiv n (Int.ofNat d))
  | PyFloat.nan => Except.error PyExn.valueError
  | PyFloat.inf => Except.error PyExn.overflowError
  | PyFloat.neginf => Except.error PyExn.overflowError

/-- The body of the `try` block of `BaseDownloader._safe_int`. -/
def safe_int_body (value : PyVal) (dflt : Int) : Except PyExn Int :=
  match value with
  | PyVal.none => Except.ok dflt
  | PyVal.str s =>
      match pyFloatOfString s with
      | Option.none => Except.error PyExn.valueError
      | some f => pyIntOfFloat f
  | PyVal.int n => Except.ok n
  | PyVal.float f => pyIntOfFloat f
  | PyVal.other => Except.ok dflt

/-- The handler `except (ValueError, TypeError): return default`; any other
exception (notably `OverflowError` from `int(float('inf'))`) propagates. -/
def catchVT (r : Except PyExn Int) (dflt : Int) : Except PyExn Int :=
  match r with
  | Except.ok n => Except.ok n
  | Except.error PyExn.valueError => Except.ok dflt
  | Except.error PyExn.typeError => Except.ok dflt
  | Except.error e => Except.error e

/-- Embedding of `BaseDownloader._safe_int`. -/
def safe_int (value : PyVal) (dflt : Int) : Except PyExn Int :=
  catchVT (safe_int_body value dflt) dflt

/-- Embedding of `BaseDownloader._normalize_duration`. -/
def normalize_duration (duration : PyVal) : Except PyExn Int :=
  safe_int duration 0

/-- The field selection of `BaseDownloader._safe_get_filesize`, shared by the
per-format and top-level-info call sites: prefer `filesize`, fall back to
`filesize_approx` when it is absent or `None`, coerce with default `0`,
catching `(ValueError, TypeError)` around the whole body. -/
def safe_get_filesize_fields (filesize filesize_approx : Option PyVal) : Except PyExn Int :=
  let fs := filesize.getD PyVal.none
  let fs := if fs = PyVal.none then filesize_approx.getD PyVal.none else fs
  catchVT (safe_int fs 0) 0

/-- One raw format dictionary from the extraction backend. A field holding
`Option.none` models an absent key; `format_note` is carried because raw
yt-dlp formats have such a free-text quality note, although the embedded
code never reads it. -/
structure RawFormat where
  url : Option String
  ext : Option String
  vcodec : Option String
  acodec : Option String
  height : Option PyVal
  width : Option PyVal
  filesize : Option PyVal
  filesize_approx : Option PyVal
  format_note : Option String
deriving DecidableEq

/-- The raw top-level info dictionary from `ydl.extract_info`. -/
structure RawInfo where
  title : Option String
  duration : Option PyVal
  thumbnail : Option String
  uploader : Option String
  formats : Option (List RawFormat)
  url : Option String
  ext : Option String
  width : Option PyVal
  height : Option PyVal
  filesize : Option PyVal
  filesize_approx : Option PyVal
deriving DecidableEq

/-- Embedding of `BaseDownloader._safe_get_filesize` on a format dictionary. -/
def safe_get_filesize (f : RawFormat) : Except PyExn Int :=
  safe_get_filesize_fields f.filesize f.filesize_approx

/-- `_safe_get_filesize(info)` applied to the top-level info dictionary
(the TikTok and Rutube fallback branches do this). -/
def safe_get_filesize_info (info : RawInfo) : Except PyExn Int :=
  safe_get_filesize_fields info.filesize info.filesize_approx

/-- One entry of a produced `formats` list. `vcodec`/`acodec` are `Option`s
because only the YouTube adapter puts those keys into its entries. -/
structure Rendition where
  url : String
  format_id : String
  ext : String
  filesize : Int
  format : String
  duration : Int
  width : Int
  height : Int
  vcodec : Option String
  acodec : Option String
deriving DecidableEq

/-- The dictionary returned by a successful `get_video_info`. -/
structure VideoInfo where
  title : String
  duration : String
  thumbnail : String
  author : String
  formats : List Rendition
  source_url : String
deriving DecidableEq

/-- Python truthiness of a string-valued `dict.get` result: `None` (absent
key) and the empty string are falsy. -/
def pyFalsyStrOpt (v : Option String) : Bool :=
  match v with
  | Option.none => true
  | some s => s = ""

/-- An empty format dictionary (`not f` is true exactly for `{}`). -/
def rawFormatFalsy (f : RawFormat) : Bool :=
  f = ⟨Option.none, Option.none, Option.none, Option.none, Option.none,
       Option.none, Option.none, Option.none, Option.none⟩

/-- Insert one element into a list sorted by `le`, before the first element
it is not `le`-after; together with `pySortBy` this is a stable sort, which
is exactly the observable behaviour of Python's `sorted`. -/
def insOne (le : α → α → Bool) (x : α) : List α → List α
  | [] => [x]
  | y :: ys => if le x y then x :: y :: ys else y :: insOne le x ys

/-- Stable sort: the embedding of Python `sorted(l, key=..., reverse=...)`
once the comparison is folded into `le`. -/
def pySortBy (le : α → α → Bool) : List α → List α
  | [] => []
  | x :: xs => insOne le x (pySortBy le xs)

/-- The sort key `lambda x: self._safe_int(x['height'], 0)` used on produced
format entries; their `height` value is always the already-coerced integer,
on which `_safe_int` cannot raise. -/
def rendSortKey (r : Rendition) : Int :=
  match safe_int (PyVal.int r.height) 0 with
  | Except.ok v => v
  | Except.error _ => 0

/-- Comparison for `sorted(formats, key=..., reverse=True)`: descending by
key, stable for equal keys. -/
def rendDescLe (a b : Rendition) : Bool :=
  rendSortKey b ≤ rendSortKey a

/-- Python `min(keys, key=...)`: left fold keeping the first element whose
key is minimal (a later element replaces only on a strictly smaller key). -/
def pyMinByKey (key : Int → Nat) (x : Int) (xs : List Int) : Int :=
  xs.foldl (fun b a => if key a < key b then a else b) x

/-- The keys of `quality_mapping` in their declaration (= iteration) order. -/
def quality_keys : List Int := [1080, 720, 480, 360, 240, 144]

/-- Embedding of `min(quality_mapping.keys(), key=lambda x: abs(x - height))`
from `YouTubeDownloader.get_video_info`. -/
def closest_quality (height : Int) : Int :=
  pyMinByKey (fun q => (q - height).natAbs) 1080 [720, 480, 360, 240, 144]

/-- Embedding of the `quality_mapping` dictionary; `Option.none` models the
`KeyError` an access outside the six tiers would raise. -/
def quality_mapping (q : Int) : Option String :=
  if q = 1080 then some "url1080"
  else if q = 720 then some "url720"
  else if q = 480 then some "url480"
  else if q = 360 then some "url360"
  else if q = 240 then some "url240"
  else if q = 144 then some "url144"
  else Option.none

/-- First value bound to key `k` in an association list (Python `dict`
lookup, the list keeping insertion order). -/
def assocFind (l : List (Int × RawFormat)) (k : Int) : Option RawFormat :=
  match l with
  | [] => Option.none
  | (k', v) :: rest => if k' = k then some v else assocFind rest k

/-- Replace the value bound to key `k`, keeping its position (Python `dict`
assignment to an existing key). -/
def assocUpdate (l : List (Int × RawFormat)) (k : Int) (v : RawFormat) :
    List (Int × RawFormat) :=
  match l with
  | [] => []
  | (k', v') :: rest =>
      if k' = k then (k', v) :: rest else (k', v') :: assocUpdate rest k v

/-- The audio-format filter of `YouTubeDownloader.get_video_info`:
`f.get('acodec', 'none') != 'none' and (f.get('vcodec', 'none') == 'none'
or not f.get('vcodec'))`. -/
def ytIsAudio (f : RawFormat) : Bool :=
  decide (f.acodec.getD "none" ≠ "none") &&
    (decide (f.vcodec.getD "none" = "none") || pyFalsyStrOpt f.vcodec)

/-- Python `max(l, key=_safe_get_filesize)` on a nonempty list: keep the
first element whose key is maximal, evaluating the key left to right. -/
def pyMaxBySizeGo (cur : RawFormat) (curK : Int) :
    List RawFormat → Except PyExn RawFormat
  | [] => Except.ok cur
  | y :: ys => do
      let ky ← safe_get_filesize y
      if curK < ky then pyMaxBySizeGo y ky ys else pyMaxBySizeGo cur curK ys

/-- `max(l, key=_safe_get_filesize)` on a nonempty list. -/
def pyMaxBySize (x : RawFormat) (xs : List RawFormat) : Except PyExn RawFormat := do
  let kx ← safe_get_filesize x
  pyMaxBySizeGo x kx xs

/-- The `video_formats` dictionary build of `YouTubeDownloader.get_video_info`:
skip formats whose `vcodec` is `'none'` by `get` default, skip non-positive
coerced heights, and per height keep the format with the strictly largest
size seen so far (insertion order preserved, in-place update on replace). -/
def ytVideoFormats (acc : List (Int × RawFormat)) :
    List RawFormat → Except PyExn (List (Int × RawFormat))
  | [] => Except.ok acc
  | f :: fs =>
      if f.vcodec.getD "none" = "none" then ytVideoFormats acc fs
      else do
        let h ← safe_int (f.height.getD (PyVal.int 0)) 0
        if h ≤ 0 then ytVideoFormats acc fs
        else do
          let cur ← safe_get_filesize f
          match assocFind acc h with
          | Option.none => ytVideoFormats (acc ++ [(h, f)]) fs
          | some g => do
              let gsz ← safe_get_filesize g
              if gsz < cur then ytVideoFormats (assocUpdate acc h f) fs
              else ytVideoFormats acc fs

/-- The audio-size summand of a YouTube entry, embedding the conditional
expression `self._safe_get_filesize(best_audio) if best_audio else 0`. -/
def ytAudioSize (ba : Option RawFormat) : Except PyExn Int :=
  match ba with
  | some a => safe_get_filesize a
  | Option.none => Except.ok 0

/-- The emission loop of `YouTubeDownloader.get_video_info`: one produced
format entry per retained `(height, format)` pair, `filesize` being the
video size plus the best audio size. -/
def ytEmit (best_audio : Option RawFormat) (dur : Int) :
    List (Int × RawFormat) → Except PyExn (List Rendition)
  | [] => Except.ok []
  | (h, f) :: rest => do
      let fid ← match quality_mapping (closest_quality h) with
        | some s => Except.ok s
        | Option.none => Except.error PyExn.keyError
      let vsz ← safe_get_filesize f
      let asz ← ytAudioSize best_audio
      let w ← safe_int (f.width.getD PyVal.none) 0
      let entry : Rendition :=
        { url := f.url.getD "", format_id := fid, ext := f.ext.getD "mp4",
          filesize := vsz + asz, format := toString h ++ "p", duration := dur,
          width := w, height := h, vcodec := some (f.vcodec.getD ""),
          acodec := some (f.acodec.getD "") }
      let tail ← ytEmit best_audio dur rest
      Except.ok (entry :: tail)

/-- Embedding of the successful path of `YouTubeDownloader.get_video_info`
(the part after `ydl.extract_info` returned the truthy `info`). -/
def youtube_video_info (url : String) (info : RawInfo) : Except PyExn VideoInfo := do
  let dur ← normalize_duration (info.duration.getD (PyVal.int 0))
  let audio_formats := (info.formats.getD []).filter ytIsAudio
  let best_audio ← match audio_formats with
    | [] => Except.ok (Option.none : Option RawFormat)
    | x :: xs => do
        let b ← pyMaxBySize x xs
        Except.ok (some b)
  let vf ← ytVideoFormats [] (info.formats.getD [])
  let fmts ← ytEmit best_audio dur vf
  Except.ok {
    title := info.title.getD "Без названия",
    duration := toString dur,
    thumbnail := info.thumbnail.getD "",
    author := info.uploader.getD "Unknown",
    formats := pySortBy rendDescLe fmts,
    source_url := url }

/-- The TikTok video-format filter `f.get('vcodec') != 'none'`: `get` without
a default returns `None` for an absent key, which differs from `'none'`. -/
def tiktokKeep (f : RawFormat) : Bool :=
  match f.vcodec with
  | Option.none => true
  | some v => decide (v ≠ "none")

/-- Embedding of the successful path of `TikTokDownloader.get_video_info`. -/
def tiktok_video_info (url : String) (info : RawInfo) : Except PyExn VideoInfo := do
  let dur ← normalize_duration (info.duration.getD (PyVal.int 0))
  let video_formats := (info.formats.getD []).filter tiktokKeep
  let fmts ← match video_formats with
    | x :: xs => do
        let best ← pyMaxBySize x xs
        let sz ← safe_get_filesize best
        let w ← safe_int (best.width.getD PyVal.none) 0
        let h ← safe_int (best.height.getD PyVal.none) 720
        let entry : Rendition :=
          { url := best.url.getD "", format_id := "url720", ext := best.ext.getD "mp4",
            filesize := sz, format := "HD", duration := dur,
            width := w, height := h, vcodec := Option.none, acodec := Option.none }
        Except.ok [entry]
    | [] => do
        let sz ← safe_get_filesize_info info
        let w ← safe_int (info.width.getD PyVal.none) 0
        let h ← safe_int (info.height.getD PyVal.none) 720
        let entry : Rendition :=
          { url := info.url.getD "", format_id := "url720", ext := info.ext.getD "mp4",
            filesize := sz, format := "HD", duration := dur,
            width := w, height := h, vcodec := Option.none, acodec := Option.none }
        Except.ok [entry]
  Except.ok {
    title := info.title.getD "Без названия",
    duration := toString dur,
    thumbnail := info.thumbnail.getD "",
    author := info.uploader.getD "Unknown",
    formats := fmts,
    source_url := url }

/-- The collection loop of `VKDownloader.get_video_info`: skip falsy entries
and entries without a truthy `url`, keep entries whose coerced height is
positive, `format_id` echoing the raw height. -/
def vkCollect (dur : Int) : List RawFormat → Except PyExn (List Rendition)
  | [] => Except.ok []
  | f :: fs =>
      if rawFormatFalsy f || pyFalsyStrOpt f.url then vkCollect dur fs
      else do
        let h ← safe_int (f.height.getD (PyVal.int 0)) 0
        if 0 < h then do
          let sz ← safe_get_filesize f
          let w ← safe_int (f.width.getD PyVal.none) 0
          let entry : Rendition :=
            { url := f.url.getD "", format_id := "url" ++ toString h,
              ext := f.ext.getD "mp4", filesize := sz, format := toString h ++ "p",
              duration := dur, width := w, height := h,
              vcodec := Option.none, acodec := Option.none }
          let rest ← vkCollect dur fs
          Except.ok (entry :: rest)
        else vkCollect dur fs

/-- Embedding of the successful path of `VKDownloader.get_video_info`. -/
def vk_video_info (url : String) (info : RawInfo) : Except PyExn VideoInfo := do
  let dur ← normalize_duration (info.duration.getD (PyVal.int 0))
  let fmts ← vkCollect dur (info.formats.getD [])
  Except.ok {
    title := info.title.getD "Без названия",
    duration := toString dur,
    thumbnail := info.thumbnail.getD "",
    author := info.uploader.getD "Unknown",
    formats := pySortBy rendDescLe fmts,
    source_url := url }

/-- Characters excluded by the URL-cleaning pattern of
`RutubeDownloader.get_video_info` (`[^\s<>"\']`). -/
def isUrlStopChar (c : Char) : Bool :=
  isSpaceChar c || c = '<' || c = '>' || c = '"' || c = '\''

/-- Try to match `https?://[^\s<>"\']+` at the head of the character list. -/
def urlMatchHere (cs : List Char) : Option (List Char) :=
  let hd : Option (List Char × List Char) :=
    if List.isPrefixOf "https://".toList cs then
      some ("https://".toList, cs.drop 8)
    else if List.isPrefixOf "http://".toList cs then
      some ("http://".toList, cs.drop 7)
    else Option.none
  match hd with
  | Option.none => Option.none
  | some (m, rest) =>
      let body := rest.takeWhile (fun c => !isUrlStopChar c)
      if body.isEmpty then Option.none else some (m ++ body)

/-- Leftmost match of the URL pattern, as `re.search` finds it. -/
def urlSearch : List Char → Option (List Char)
  | [] => Option.none
  | c :: rest =>
      match urlMatchHere (c :: rest) with
      | some m => some m
      | Option.none => urlSearch rest

/-- Embedding of the URL cleaning in `RutubeDownloader.get_video_info`:
the first `https?://[^\s<>"\']+` match, or the original string if none. -/
def rutubeCleanUrl (url : String) : String :=
  match urlSearch url.toList with
  | some m => String.mk m
  | Option.none => url

/-- The collection loop of `RutubeDownloader.get_video_info`: like VK's but
with the non-positive-height skip written as a separate `continue`. -/
def rutubeCollect (dur : Int) : List RawFormat → Except PyExn (List Rendition)
  | [] => Except.ok []
  | f :: fs =>
      if rawFormatFalsy f || pyFalsyStrOpt f.url then rutubeCollect dur fs
      else do
        let h ← safe_int (f.height.getD (PyVal.int 0)) 0
        if h ≤ 0 then rutubeCollect dur fs
        else do
          let sz ← safe_get_filesize f
          let w ← safe_int (f.width.getD PyVal.none) 0
          let entry : Rendition :=
            { url := f.url.getD "", format_id := "url" ++ toString h,
              ext := f.ext.getD "mp4", filesize := sz, format := toString h ++ "p",
              duration := dur, width := w, height := h,
              vcodec := Option.none, acodec := Option.none }
          let rest ← rutubeCollect dur fs
          Except.ok (entry :: rest)

/-- Embedding of the successful path of `RutubeDownloader.get_video_info`,
including the fallback single `'HD'` entry fabricated when the loop kept
nothing and the info dictionary has a top-level `'url'` key. -/
def rutube_video_info (url : String) (info : RawInfo) : Except PyExn VideoInfo := do
  let clean_url := rutubeCleanUrl url
  let dur ← normalize_duration (info.duration.getD (PyVal.int 0))
  let fmts ← rutubeCollect dur (info.formats.getD [])
  let fmts ← if fmts.isEmpty ∧ info.url.isSome then do
      let sz ← safe_get_filesize_info info
      let w ← safe_int (info.width.getD PyVal.none) 0
      let entry : Rendition :=
        { url := info.url.getD "", format_id := "url720", ext := info.ext.getD "mp4",
          filesize := sz, format := "HD", duration := dur,
          width := w, height := 720, vcodec := Option.none, acodec := Option.none }
      Except.ok [entry]
    else Except.ok fmts
  Except.ok {
    title := info.title.getD "Без названия",
    duration := toString dur,
    thumbnail := info.thumbnail.getD "",
    author := info.uploader.getD "Unknown",
    formats := pySortBy rendDescLe fmts,
    source_url := clean_url }

/-- Substring containment, the embedding of Python's `needle in haystack`. -/
def strOccurs (needle hay : String) : Bool :=
  let h := hay.toList
  (List.range (h.length + 1)).any fun i => List.isPrefixOf needle.toList (h.drop i)

/-- Embedding of `Downloader._get_platform`: the ordered chain of substring
tests over domain markers, `Option.none` when no marker matches. -/
def get_platform (url : String) : Option String :=
  if strOccurs "youtube.com" url || strOccurs "youtu.be" url then some "youtube"
  else if strOccurs "instagram.com" url then some "instagram"
  else if strOccurs "tiktok.com" url then some "tiktok"
  else if strOccurs "vk.com" url then some "vk"
  else if strOccurs "rutube.ru" url then some "rutube"
  else Option.none

/-- The cache `self._cache`: an insertion-ordered association list from URL
to `(VideoInfo, insertion timestamp)`. -/
def Cache : Type := List (String × VideoInfo × Int)

/-- Dictionary lookup in the cache. -/
def cacheLookup (c : Cache) (url : String) : Option (VideoInfo × Int) :=
  match c with
  | ([] : List (String × VideoInfo × Int)) => Option.none
  | (k, v) :: rest => if k = url then some v else cacheLookup rest url

/-- `del self._cache[url]`. -/
def cacheErase (c : Cache) (url : String) : Cache :=
  match c with
  | ([] : List (String × VideoInfo × Int)) => []
  | (k, v) :: rest =>
      if k = url then (rest : Cache) else ((k, v) :: cacheErase rest url : List _)

/-- `self._cache[url] = (info, now)`: overwrite in place or append. -/
def cacheStore (c : Cache) (url : String) (info : VideoInfo) (now : Int) : Cache :=
  match c with
  | ([] : List (String × VideoInfo × Int)) => [(url, info, now)]
  | (k, v) :: rest =>
      if k = url then ((url, info, now) :: rest : List _)
      else ((k, v) :: cacheStore rest url info now : List _)

/-- `self._cache_ttl = timedelta(minutes=5)`, in seconds. -/
def cacheTtl : Int := 300

/-- `dict.copy()` at the level of dictionary contents: the copy holds the
same values (the identity and sharing aspects are modelled by `Mem`). -/
def dict_copy (v : VideoInfo) : VideoInfo := v

/-- The two `except` clauses at the end of `Downloader.get_video_info`:
a `VideoDownloadError` is re-raised unchanged, anything else is wrapped. -/
def wrapExn (e : PyExn) : PyExn :=
  match e with
  | PyExn.videoDownloadError m => PyExn.videoDownloadError m
  | _ => PyExn.videoDownloadError "Неожиданная ошибка при получении информации о видео"

/-- Result of one call to the orchestrator: the returned or raised value,
the cache left behind, and how many extraction calls were made. -/
structure ResolveOutcome where
  result : Except PyExn (Option VideoInfo)
  cache : Cache
  extract_calls : Nat

/-- The fresh-resolution path of `Downloader.get_video_info`: route the URL,
raise on an unsupported platform, otherwise run the platform extraction
(abstracted as the `extract` collaborator, counted per call) and on a truthy
result store a copy and return another copy. -/
def resolveFresh (cache : Cache) (now : Int)
    (extract : String → Except PyExn (Option VideoInfo)) (url : String) :
    ResolveOutcome :=
  match get_platform url with
  | Option.none =>
      ⟨Except.error (PyExn.videoDownloadError "Неподдерживаемая платформа"), cache, 0⟩
  | some _ =>
      match extract url with
      | Except.error e => ⟨Except.error (wrapExn e), cache, 1⟩
      | Except.ok Option.none => ⟨Except.ok Option.none, cache, 1⟩
      | Except.ok (some r) =>
          ⟨Except.ok (some (dict_copy r)), cacheStore cache url (dict_copy r) now, 1⟩

/-- Embedding of `Downloader.get_video_info`: serve a fresh cache hit as a
copy, lazily evict an expired entry for the looked-up key, then resolve
freshly. -/
def downloader_get_video_info (cache : Cache) (now : Int)
    (extract : String → Except PyExn (Option VideoInfo)) (url : String) :
    ResolveOutcome :=
  match cacheLookup cache url with
  | some (data, t) =>
      if now - t < cacheTtl then ⟨Except.ok (some (dict_copy data)), cache, 0⟩
      else resolveFresh (cacheErase cache url) now extract url
  | Option.none => resolveFresh cache now extract url

/-- A `VideoInfo` dictionary as an object: the scalar fields hold immutable
strings, while `formats` holds a reference into the list heap. -/
structure VideoInfoDict where
  title : String
  duration : String
  thumbnail : String
  author : String
  formats_ref : Nat
  source_url : String
deriving DecidableEq

/-- A small object memory for the aliasing behaviour of `dict.copy()`:
top-level info dictionaries, list objects (lists of rendition references),
and mutable rendition dictionaries. -/
structure Mem where
  nextId : Nat
  dicts : Nat → VideoInfoDict
  lists : Nat → List Nat
  rends : Nat → Rendition

/-- `d.copy()` as an allocation: a fresh top-level dictionary whose fields —
including the `formats` reference — are taken from the source dictionary. -/
def shallow_copy_alloc (m : Mem) (src : Nat) : Nat × Mem :=
  (m.nextId,
   { m with nextId := m.nextId + 1,
            dicts := Function.update m.dicts m.nextId (m.dicts src) })

/-- Mutate a top-level field of one info dictionary (e.g. `d['title'] = s`). -/
def setDictTitle (m : Mem) (i : Nat) (s : String) : Mem :=
  { m with dicts := Function.update m.dicts i { m.dicts i with title := s } }

/-- Mutate one rendition object in place (e.g. `d['formats'][0]['url'] = u`). -/
def setRend (m : Mem) (r : Nat) (v : Rendition) : Mem :=
  { m with rends := Function.update m.rends r v }

/-- The renditions an info dictionary currently presents, resolved through
the shared list and rendition objects. -/
def viewFormats (m : Mem) (i : Nat) : List Rendition :=
  (m.lists (m.dicts i).formats_ref).map m.rends

/-- The full contents an info dictionary currently presents. -/
def viewInfo (m : Mem) (i : Nat) : VideoInfo :=
  let d := m.dicts i
  ⟨d.title, d.duration, d.thumbnail, d.author, viewFormats m i, d.source_url⟩

/-- Apply `g` to the `format_note` of every raw format of an info
dictionary, leaving every other field alone. -/
def mapFormatNotes (g : Option String → Option String) (info : RawInfo) : RawInfo :=
  { info with
    formats := info.formats.map (List.map fun f => { f with format_note := g f.format_note }) }

/-- A raw video format of given height, size and URL, as the extraction
backend would report it for a muxed-delivery scenario. -/
def sampleVideoFormat (h sz : Int) (u : String) : RawFormat :=
  ⟨some u, some "mp4", some "avc1", some "none", some (PyVal.int h),
   some (PyVal.int 1280), some (PyVal.int sz), Option.none, Option.none⟩

/-- A raw audio-only format of the given size. -/
def sampleAudioFormat (sz : Int) : RawFormat :=
  ⟨some "https://a.test/audio", some "m4a", some "none", some "mp4a",
   Option.none, Option.none, some (PyVal.int sz), Option.none, Option.none⟩

/-- The raw payload of the muxed end-to-end scenario: video candidates of
heights 720 and 1080 plus one audio candidate. -/
def muxedScenarioInfo : RawInfo :=
  ⟨some "Clip", some (PyVal.int 300), some "https://t.test/th.jpg", some "Auth",
   some [sampleVideoFormat 720 50000000 "https://v.test/720",
         sampleVideoFormat 1080 90000000 "https://v.test/1080",
         sampleAudioFormat 3000000],
   Option.none, Option.none, Option.none, Option.none, Option.none, Option.none⟩

/-- A raw payload with two distinct heights, 700 and 740, that classify to
the same 720 tier. -/
def sameTierInfo : RawInfo :=
  ⟨Option.none, Option.none, Option.none, Option.none,
   some [sampleVideoFormat 700 10 "https://v.test/700",
         sampleVideoFormat 740 20 "https://v.test/740"],
   Option.none, Option.none, Option.none, Option.none, Option.none, Option.none⟩

/-- A raw VK candidate with no height field but a `"720p"` quality note. -/
def notedHeightlessFormat : RawFormat :=
  ⟨some "https://vk.test/v", some "mp4", Option.none, Option.none, Option.none,
   Option.none, some (PyVal.int 5000), Option.none, some "720p"⟩

/-- A raw VK payload whose only candidate is `notedHeightlessFormat`. -/
def notedHeightlessInfo : RawInfo :=
  ⟨some "T", some (PyVal.int 10), Option.none, some "A", some [notedHeightlessFormat],
   Option.none, Option.none, Option.none, Option.none, Option.none, Option.none⟩

/-- A resolved `VideoInfo` used as concrete cached data. -/
def sampleResolved : VideoInfo :=
  ⟨"S", "60", "", "A",
   [⟨"https://v.test/s", "url360", "mp4", 5, "360p", 60, 640, 360, Option.none, Option.none⟩],
   "https://vk.com/video9"⟩

/-- A second, different resolved `VideoInfo`. -/
def sampleResolved2 : VideoInfo :=
  ⟨"S2", "61", "", "B", [], "https://vk.com/video9"⟩

/-- A cache holding `sampleResolved` for its URL, inserted at time 0. -/
def sampleCache : Cache := [("https://vk.com/video9", sampleResolved, 0)]

/-- An extraction collaborator stub returning a fixed outcome. -/
def extractStub (r : Except PyExn (Option VideoInfo)) :
    String → Except PyExn (Option VideoInfo) :=
  fun _ => r

/-- A rendition object held in the concrete memory. -/
def memRend0 : Rendition :=
  ⟨"https://v.test/720", "url720", "mp4", 1, "720p", 1, 1, 720, Option.none, Option.none⟩

/-- The value a caller writes into the shared rendition object. -/
def memRend1 : Rendition :=
  ⟨"corrupted", "url720", "mp4", 9, "720p", 1, 1, 720, Option.none, Option.none⟩

/-- The cached top-level dictionary: object 0, its formats list at list
reference 0. -/
def memDict0 : VideoInfoDict := ⟨"T", "1", "th", "A", 0, "src"⟩

/-- A concrete memory: one cached info dictionary (object 0) whose formats
list holds one rendition reference. -/
def mem0 : Mem := ⟨1, fun _ => memDict0, fun _ => [0], fun _ => memRend0⟩

/-- A raw Rutube payload with no positive-height candidate but a top-level
URL: one heightless candidate plus direct-URL fields on the info dict. -/
def rutubeFallbackInfo : RawInfo :=
  ⟨some "T", some (PyVal.int 10), Option.none, some "A",
   some [⟨some "https://r.test/hls", some "m3u8", Option.none, Option.none,
          Option.none, Option.none, Option.none, Option.none, Option.none⟩],
   some "https://rutube.ru/direct", some "mp4", some (PyVal.int 1280),
   Option.none, some (PyVal.int 777), Option.none⟩

/-- A raw TikTok payload whose only candidate is audio-only (vcodec
`'none'`), with a top-level direct URL. -/
def tiktokFallbackInfo : RawInfo :=
  ⟨some "T", some (PyVal.int 10), Option.none, some "A",
   some [⟨some "https://t.test/a", some "m4a", some "none", some "mp4a",
          Option.none, Option.none, some (PyVal.int 42), Option.none, Option.none⟩],
   some "https://tt.test/direct", some "mp4", some (PyVal.int 1280),
   Option.none, some (PyVal.int 555), Option.none⟩

/-- The `VideoInfo` the YouTube adapter resolves `muxedScenarioInfo` to. -/
def muxedScenarioResolved : VideoInfo :=
  ⟨"Clip", "300", "https://t.test/th.jpg", "Auth",
   [⟨"https://v.test/1080", "url1080", "mp4", 93000000, "1080p", 300, 1280, 1080,
     some "avc1", some "none"⟩,
    ⟨"https://v.test/720", "url720", "mp4", 53000000, "720p", 300, 1280, 720,
     some "avc1", some "none"⟩],
   "https://youtube.com/watch?v=x"⟩

/-! Theorems. -/

set_option maxHeartbeats 2000000 in
/-- Closed-form characterization of the tier classifier: Python's `min`
keeps the first key of `[1080, 720, 480, 360, 240, 144]` whose absolute
distance is minimal, so on the midpoints 192, 300, 420, 600, 900 the
earlier — higher — tier wins. -/
theorem closest_quality_char (h : Int) :
    closest_quality h =
      if 900 ≤ h then 1080 else if 600 ≤ h then 720 else if 420 ≤ h then 480
      else if 300 ≤ h then 360 else if 192 ≤ h then 240 else 144 := by
  simp only [closest_quality, pyMinByKey, List.foldl]
  split_ifs <;> omega

/-- C1, counterexample: classifying height 300 — the midpoint between 240
and 360 — yields 360, not the lower tier 240 the claim states. -/
theorem closest_quality_300_cex :
    closest_quality 300 = 360 ∧ closest_quality 300 ≠ 240 := by
  constructor
  · decide
  · decide

/-- C1 (amended): for every positive height the classifier returns one of
the six tiers minimizing the absolute difference, and on an exact tie it
deterministically selects the HIGHER of the equidistant tiers (the one
listed earlier in `quality_mapping`), so height 300 classifies to 360. -/
theorem closest_quality_nearest_tie_higher (h : Int) (hpos : 0 < h) :
    closest_quality h ∈ quality_keys
    ∧ (∀ q ∈ quality_keys, (closest_quality h - h).natAbs ≤ (q - h).natAbs)
    ∧ (∀ q ∈ quality_keys, (q - h).natAbs = (closest_quality h - h).natAbs →
        q ≤ closest_quality h) := by
  rw [closest_quality_char h]
  split_ifs <;>
    refine ⟨by simp [quality_keys], fun q hq => ?_, fun q hq hEq => ?_⟩ <;>
    simp only [quality_keys, List.mem_cons, List.not_mem_nil, or_false] at hq <;>
    rcases hq with rfl | rfl | rfl | rfl | rfl | rfl <;> omega

/-- Witness for C1's amended theorem at the tie height 300. -/
theorem closest_quality_nearest_tie_higher_witness :
    (0 : Int) < 300
    ∧ (closest_quality 300 ∈ quality_keys
       ∧ (∀ q ∈ quality_keys, (closest_quality 300 - 300).natAbs ≤ (q - 300).natAbs)
       ∧ (∀ q ∈ quality_keys, (q - 300).natAbs = (closest_quality 300 - 300).natAbs →
           q ≤ closest_quality 300)) :=
  ⟨by decide, closest_quality_nearest_tie_higher 300 (by decide)⟩

/-- C5 (code bug): `_safe_int` is documented as a safe conversion and the
spec claims it never raises, but `int(float('inf'))` raises
`OverflowError`, which the `except (ValueError, TypeError)` handler does
not catch — both the string `"inf"` and an infinite float escape; finite
inputs behave as specified. -/
theorem safe_int_raises_on_infinity :
    safe_int (PyVal.str "inf") 0 = Except.error PyExn.overflowError
    ∧ safe_int (PyVal.float PyFloat.inf) 7 = Except.error PyExn.overflowError
    ∧ safe_int (PyVal.str "123.0") 0 = Except.ok 123
    ∧ safe_int PyVal.none 5 = Except.ok 5
    ∧ safe_int (PyVal.str "abc") 9 = Except.ok 9
    ∧ safe_int (PyVal.float (PyFloat.finite (-27) 10)) 0 = Except.ok (-2)
    ∧ safe_int PyVal.other 4 = Except.ok 4 := by
  decide

/-- C6: on the muxed platform (YouTube), two video candidates of heights
720 (50 MB) and 1080 (90 MB) plus a 3 MB audio candidate resolve to exactly
two renditions, `url1080` of size 93_000_000 listed first and `url720` of
size 53_000_000 second — each video size plus the representative audio
size, descending by resolution. -/
theorem youtube_muxed_end_to_end :
    youtube_video_info "https://youtube.com/watch?v=x" muxedScenarioInfo
      = Except.ok
          ⟨"Clip", "300", "https://t.test/th.jpg", "Auth",
           [⟨"https://v.test/1080", "url1080", "mp4", 93000000, "1080p", 300, 1280, 1080,
             some "avc1", some "none"⟩,
            ⟨"https://v.test/720", "url720", "mp4", 53000000, "720p", 300, 1280, 720,
             some "avc1", some "none"⟩],
           "https://youtube.com/watch?v=x"⟩ := by
  decide

/-- C7: on a URL that matches no domain marker, `get_video_info` raises the
unsupported-platform `VideoDownloadError` and invokes the extraction
collaborator zero times, provided no fresh cache entry short-circuits
the call. -/
theorem unsupported_platform_zero_extractions (cache : Cache) (now : Int)
    (extract : String → Except PyExn (Option VideoInfo)) (url : String)
    (hplat : get_platform url = Option.none)
    (hmiss : ∀ d t, cacheLookup cache url = some (d, t) → cacheTtl ≤ now - t) :
    (downloader_get_video_info cache now extract url).result
        = Except.error (PyExn.videoDownloadError "Неподдерживаемая платформа")
    ∧ (downloader_get_video_info cache now extract url).extract_calls = 0 := by
  cases hL : cacheLookup cache url with
  | none => simp [downloader_get_video_info, hL, resolveFresh, hplat]
  | some e =>
      obtain ⟨d, t⟩ := e
      have hexp := hmiss d t hL
      simp only [downloader_get_video_info, hL]
      rw [if_neg (by omega)]
      simp [resolveFresh, hplat]

/-- Witness for C7 at the spec's own example URL and an empty cache. -/
theorem unsupported_platform_zero_extractions_witness :
    (downloader_get_video_info [] 0 (extractStub (Except.ok Option.none))
        "https://example.com/video").result
      = Except.error (PyExn.videoDownloadError "Неподдерживаемая платформа")
    ∧ (downloader_get_video_info [] 0 (extractStub (Except.ok Option.none))
        "https://example.com/video").extract_calls = 0 :=
  unsupported_platform_zero_extractions [] 0 (extractStub (Except.ok Option.none))
    "https://example.com/video" (by decide)
    (fun d t h => by exact Option.noConfusion h)

/-- Storing under a key makes that key's lookup return exactly the stored
value with the new timestamp, whatever was there before. -/
theorem cacheStore_lookup (c : Cache) (url : String) (info : VideoInfo) (now : Int) :
    cacheLookup (cacheStore c url info now) url = some (info, now) := by
  induction c with
  | nil => simp [cacheStore, cacheLookup]
  | cons e rest ih =>
      obtain ⟨k, v⟩ := e
      by_cases hk : k = url
      · simp [cacheStore, cacheLookup, hk]
      · simp [cacheStore, cacheLookup, hk, ih]

/-- Storing under a key leaves every other key's lookup unchanged. -/
theorem cacheStore_lookup_other (c : Cache) (url : String) (info : VideoInfo)
    (now : Int) (k : String) (hk : k ≠ url) :
    cacheLookup (cacheStore c url info now) k = cacheLookup c k := by
  induction c with
  | nil => simp [cacheStore, cacheLookup, Ne.symm hk]
  | cons e rest ih =>
      obtain ⟨k', v⟩ := e
      by_cases hk' : k' = url
      · subst hk'
        simp only [cacheStore, if_pos rfl, cacheLookup, if_neg (Ne.symm hk)]
      · simp only [cacheStore, if_neg hk', cacheLookup]
        by_cases hkk : k' = k
        · simp [hkk]
        · simp [hkk, ih]

/-- Erasing a key leaves every other key's lookup unchanged. -/
theorem cacheErase_lookup_other (c : Cache) (url k : String) (hk : k ≠ url) :
    cacheLookup (cacheErase c url) k = cacheLookup c k := by
  induction c with
  | nil => simp [cacheErase]
  | cons e rest ih =>
      obtain ⟨k', v⟩ := e
      by_cases hk' : k' = url
      · subst hk'
        simp [cacheErase, cacheLookup, Ne.symm hk]
      · simp only [cacheErase, if_neg hk', cacheLookup]
        by_cases hkk : k' = k
        · simp [hkk]
        · simp [hkk, ih]

/-- C3: the resolution cache never serves an entry at or past the 5-minute
TTL — a lookup strictly inside the TTL returns the cached value as a copy
with zero extraction calls; at or past the TTL the entry is deleted first
(lazy eviction) and resolution proceeds freshly, and when the fresh
extraction succeeds its copied result is stored under the key with the
current time as the new insertion timestamp. -/
theorem cache_ttl_semantics (cache : Cache) (now : Int)
    (extract : String → Except PyExn (Option VideoInfo)) (url : String)
    (d : VideoInfo) (t : Int) (p : String) (r : VideoInfo)
    (hL : cacheLookup cache url = some (d, t)) :
    (now - t < cacheTtl →
        downloader_get_video_info cache now extract url
          = ⟨Except.ok (some (dict_copy d)), cache, 0⟩)
    ∧ (cacheTtl ≤ now - t →
        downloader_get_video_info cache now extract url
          = resolveFresh (cacheErase cache url) now extract url)
    ∧ (cacheTtl ≤ now - t → get_platform url = some p →
        extract url = Except.ok (some r) →
        downloader_get_video_info cache now extract url
          = ⟨Except.ok (some (dict_copy r)),
             cacheStore (cacheErase cache url) url (dict_copy r) now, 1⟩
        ∧ cacheLookup (downloader_get_video_info cache now extract url).cache url
          = some (dict_copy r, now)) := by
  refine ⟨fun hfresh => ?_, fun hexp => ?_, fun hexp hp hx => ?_⟩
  · simp only [downloader_get_video_info, hL]
    rw [if_pos (by omega)]
  · simp only [downloader_get_video_info, hL]
    rw [if_neg (by omega)]
  · have hstep : downloader_get_video_info cache now extract url
        = ⟨Except.ok (some (dict_copy r)),
           cacheStore (cacheErase cache url) url (dict_copy r) now, 1⟩ := by
      simp only [downloader_get_video_info, hL]
      rw [if_neg (by omega)]
      simp [resolveFresh, hp, hx]
    refine ⟨hstep, ?_⟩
    rw [hstep]
    exact cacheStore_lookup _ _ _ _

/-- Witness for C3: an entry inserted at time 0 looked up at time 1000 is
evicted and re-extracted, and the new entry carries timestamp 1000. -/
theorem cache_ttl_semantics_witness :
    downloader_get_video_info sampleCache 1000
        (extractStub (Except.ok (some sampleResolved2))) "https://vk.com/video9"
      = ⟨Except.ok (some (dict_copy sampleResolved2)),
         cacheStore (cacheErase sampleCache "https://vk.com/video9") "https://vk.com/video9"
           (dict_copy sampleResolved2) 1000, 1⟩
    ∧ cacheLookup (downloader_get_video_info sampleCache 1000
        (extractStub (Except.ok (some sampleResolved2))) "https://vk.com/video9").cache
        "https://vk.com/video9"
      = some (dict_copy sampleResolved2, 1000) :=
  (cache_ttl_semantics sampleCache 1000 (extractStub (Except.ok (some sampleResolved2)))
      "https://vk.com/video9" sampleResolved 0 "vk" sampleResolved2 (by decide)).2.2
    (by decide) (by decide) (by decide)

/-- C10: when `get_video_info` does not return a resolved value — an
unsupported platform, a raising extraction, or extraction yielding nothing —
no cache entry is created or overwritten: the cache is left exactly as it
was, except possibly for the lazy eviction of an already-expired entry under
the requested URL itself, and other keys are never touched. -/
theorem resolve_failure_no_cache_write (cache : Cache) (now : Int)
    (extract : String → Except PyExn (Option VideoInfo)) (url : String)
    (hfail : ∀ vi, (downloader_get_video_info cache now extract url).result
        ≠ Except.ok (some vi)) :
    ((downloader_get_video_info cache now extract url).cache = cache
      ∨ ((downloader_get_video_info cache now extract url).cache = cacheErase cache url
          ∧ ∃ d t, cacheLookup cache url = some (d, t) ∧ cacheTtl ≤ now - t))
    ∧ ∀ k, k ≠ url →
        cacheLookup (downloader_get_video_info cache now extract url).cache k
          = cacheLookup cache k := by
  have hfreshCase : ∀ (c : Cache),
      (resolveFresh c now extract url).cache = c
      ∨ (resolveFresh c now extract url).result = Except.ok (some
          (dict_copy (match extract url with
            | Except.ok (some r) => r
            | _ => sampleResolved))) := by
    intro c
    unfold resolveFresh
    cases hp : get_platform url with
    | none => exact Or.inl rfl
    | some p =>
        cases hx : extract url with
        | error e => exact Or.inl rfl
        | ok o =>
            cases o with
            | none => exact Or.inl rfl
            | some r => exact Or.inr rfl
  cases hL : cacheLookup cache url with
  | none =>
      have hres : downloader_get_video_info cache now extract url
          = resolveFresh cache now extract url := by
        simp [downloader_get_video_info, hL]
      rcases hfreshCase cache with hc | hr
      · rw [hres]
        exact ⟨Or.inl hc, fun k _ => by rw [hc]⟩
      · exfalso
        exact hfail _ (by rw [hres]; exact hr)
  | some e =>
      obtain ⟨d, t⟩ := e
      by_cases hfresh : now - t < cacheTtl
      · exfalso
        refine hfail (dict_copy d) ?_
        simp [downloader_get_video_info, hL, if_pos hfresh]
      · have hres : downloader_get_video_info cache now extract url
            = resolveFresh (cacheErase cache url) now extract url := by
          simp only [downloader_get_video_info, hL]
          rw [if_neg hfresh]
        rcases hfreshCase (cacheErase cache url) with hc | hr
        · rw [hres]
          refine ⟨Or.inr ⟨hc, d, t, rfl, by omega⟩, fun k hk => ?_⟩
          rw [hc]
          exact cacheErase_lookup_other cache url k hk
        · exfalso
          exact hfail _ (by rw [hres]; exact hr)

/-- Witness for C10: an expired entry plus a raising extraction — the only
cache mutation is the lazy eviction of the expired entry. -/
theorem resolve_failure_no_cache_write_witness :
    ((downloader_get_video_info sampleCache 1000
        (extractStub (Except.error PyExn.valueError)) "https://vk.com/video9").cache
          = sampleCache
      ∨ ((downloader_get_video_info sampleCache 1000
            (extractStub (Except.error PyExn.valueError)) "https://vk.com/video9").cache
          = cacheErase sampleCache "https://vk.com/video9"
         ∧ ∃ d t, cacheLookup sampleCache "https://vk.com/video9" = some (d, t)
             ∧ cacheTtl ≤ 1000 - t))
    ∧ ∀ k, k ≠ "https://vk.com/video9" →
        cacheLookup (downloader_get_video_info sampleCache 1000
            (extractStub (Except.error PyExn.valueError)) "https://vk.com/video9").cache k
          = cacheLookup sampleCache k :=
  resolve_failure_no_cache_write sampleCache 1000
    (extractStub (Except.error PyExn.valueError)) "https://vk.com/video9"
    (fun vi h => by exact Except.noConfusion h)

/-- C4, counterexample: the value handed to the caller is only a shallow
`dict.copy()` — it shares the `formats` reference with the cached
dictionary, so mutating a nested rendition object through the returned copy
changes what the cached entry presents, contradicting the claim that the
caller may mutate nested renditions without corrupting the cache. -/
theorem shallow_copy_corrupts_cache_cex :
    ((shallow_copy_alloc mem0 0).2.dicts (shallow_copy_alloc mem0 0).1).formats_ref
      = ((shallow_copy_alloc mem0 0).2.dicts 0).formats_ref
    ∧ viewFormats (setRend (shallow_copy_alloc mem0 0).2 0 memRend1) 0
        ≠ viewFormats (shallow_copy_alloc mem0 0).2 0 := by
  constructor
  · decide
  · decide

/-- C4 (amended): a resolve call answered from the cache (or freshly) hands
back a `dict.copy()` of the cached dictionary — a distinct top-level object
equal in content, and replacing top-level fields of the returned copy leaves
the cached entry intact; but the copy is shallow, sharing the nested
`formats` list (and hence the rendition objects), so mutating a nested
rendition through the returned value is visible in the cached entry. -/
theorem dict_copy_shallow_semantics (m : Mem) (src : Nat) (s : String)
    (hsrc : src < m.nextId) :
    (shallow_copy_alloc m src).1 ≠ src
    ∧ viewInfo (shallow_copy_alloc m src).2 (shallow_copy_alloc m src).1
        = viewInfo (shallow_copy_alloc m src).2 src
    ∧ ((shallow_copy_alloc m src).2.dicts (shallow_copy_alloc m src).1).formats_ref
        = ((shallow_copy_alloc m src).2.dicts src).formats_ref
    ∧ viewInfo (setDictTitle (shallow_copy_alloc m src).2 (shallow_copy_alloc m src).1 s) src
        = viewInfo (shallow_copy_alloc m src).2 src := by
  have hne : m.nextId ≠ src := by omega
  have hne' : src ≠ m.nextId := by omega
  refine ⟨hne, ?_, ?_, ?_⟩
  · simp [viewInfo, viewFormats, shallow_copy_alloc,
      Function.update_same, Function.update_noteq hne']
  · simp [shallow_copy_alloc, Function.update_same, Function.update_noteq hne']
  · simp [viewInfo, viewFormats, setDictTitle, shallow_copy_alloc,
      Function.update_same, Function.update_noteq hne']

/-- Witness for C4's amended theorem on the concrete one-entry memory. -/
theorem dict_copy_shallow_semantics_witness :
    (shallow_copy_alloc mem0 0).1 ≠ 0
    ∧ viewInfo (shallow_copy_alloc mem0 0).2 (shallow_copy_alloc mem0 0).1
        = viewInfo (shallow_copy_alloc mem0 0).2 0
    ∧ ((shallow_copy_alloc mem0 0).2.dicts (shallow_copy_alloc mem0 0).1).formats_ref
        = ((shallow_copy_alloc mem0 0).2.dicts 0).formats_ref
    ∧ viewInfo (setDictTitle (shallow_copy_alloc mem0 0).2 (shallow_copy_alloc mem0 0).1
          "mutated") 0
        = viewInfo (shallow_copy_alloc mem0 0).2 0 :=
  dict_copy_shallow_semantics mem0 0 "mutated" (by decide)

/-- Monadic unit step of the `Except` embedding. -/
theorem except_bind_ok {ε α β : Type} (a : α) (f : α → Except ε β) :
    (Except.ok (ε := ε) a >>= f) = f a := rfl

/-- A raised exception short-circuits the rest of the computation. -/
theorem except_bind_error {ε α β : Type} (e : ε) (f : α → Except ε β) :
    (Except.error (α := α) e >>= f) = Except.error e := rfl

/-- The Rutube collection loop keeps nothing when every raw candidate is
falsy, lacks a truthy URL, or coerces to a non-positive height. -/
theorem rutubeCollect_all_skipped (dur : Int) (fs : List RawFormat)
    (h : ∀ f ∈ fs, rawFormatFalsy f = true ∨ pyFalsyStrOpt f.url = true ∨
        ∃ hh, safe_int (f.height.getD (PyVal.int 0)) 0 = Except.ok hh ∧ hh ≤ 0) :
    rutubeCollect dur fs = Except.ok [] := by
  induction fs with
  | nil => rfl
  | cons f fs ih =>
      have hf := h f (List.mem_cons_self f fs)
      have hrest := fun g hg => h g (List.mem_cons_of_mem f hg)
      by_cases hc : (rawFormatFalsy f || pyFalsyStrOpt f.url) = true
      · simp only [rutubeCollect, hc, if_true]
        exact ih hrest
      · rcases hf with hf | hf | ⟨hh, heq, hle⟩
        · simp [hf] at hc
        · simp [hf] at hc
        · simp only [rutubeCollect]
          rw [if_neg (by simp [hc]), heq, except_bind_ok, if_pos hle]
          exact ih hrest

/-- The VK collection loop keeps nothing under the same conditions. -/
theorem vkCollect_all_skipped (dur : Int) (fs : List RawFormat)
    (h : ∀ f ∈ fs, rawFormatFalsy f = true ∨ pyFalsyStrOpt f.url = true ∨
        ∃ hh, safe_int (f.height.getD (PyVal.int 0)) 0 = Except.ok hh ∧ hh ≤ 0) :
    vkCollect dur fs = Except.ok [] := by
  induction fs with
  | nil => rfl
  | cons f fs ih =>
      have hf := h f (List.mem_cons_self f fs)
      have hrest := fun g hg => h g (List.mem_cons_of_mem f hg)
      by_cases hc : (rawFormatFalsy f || pyFalsyStrOpt f.url) = true
      · simp only [vkCollect, hc, if_true]
        exact ih hrest
      · rcases hf with hf | hf | ⟨hh, heq, hle⟩
        · simp [hf] at hc
        · simp [hf] at hc
        · simp only [vkCollect]
          rw [if_neg (by simp [hc]), heq, except_bind_ok, if_neg (by omega)]
          exact ih hrest

/-- C8: on a payload with zero positive-height candidates but a top-level
URL, normalization yields exactly one fallback rendition with format id
`url720` and label `"HD"` — never an empty list and never more than one
entry: proved for the Rutube adapter (explicit fallback branch, height
pinned to 720) and for the TikTok adapter (no video candidate at all, the
single entry built from the top-level fields). -/
theorem fallback_rendition_single :
    (∀ (url : String) (info : RawInfo) (u : String) (dur sz w : Int),
      info.url = some u →
      (∀ f ∈ info.formats.getD [], rawFormatFalsy f = true ∨ pyFalsyStrOpt f.url = true ∨
          ∃ hh, safe_int (f.height.getD (PyVal.int 0)) 0 = Except.ok hh ∧ hh ≤ 0) →
      normalize_duration (info.duration.getD (PyVal.int 0)) = Except.ok dur →
      safe_get_filesize_info info = Except.ok sz →
      safe_int (info.width.getD PyVal.none) 0 = Except.ok w →
      rutube_video_info url info = Except.ok
        ⟨info.title.getD "Без названия", toString dur, info.thumbnail.getD "",
         info.uploader.getD "Unknown",
         [⟨u, "url720", info.ext.getD "mp4", sz, "HD", dur, w, 720,
           Option.none, Option.none⟩],
         rutubeCleanUrl url⟩)
    ∧ (∀ (url : String) (info : RawInfo) (dur sz w hh : Int),
      (∀ f ∈ info.formats.getD [], tiktokKeep f = false) →
      normalize_duration (info.duration.getD (PyVal.int 0)) = Except.ok dur →
      safe_get_filesize_info info = Except.ok sz →
      safe_int (info.width.getD PyVal.none) 0 = Except.ok w →
      safe_int (info.height.getD PyVal.none) 720 = Except.ok hh →
      tiktok_video_info url info = Except.ok
        ⟨info.title.getD "Без названия", toString dur, info.thumbnail.getD "",
         info.uploader.getD "Unknown",
         [⟨info.url.getD "", "url720", info.ext.getD "mp4", sz, "HD", dur, w, hh,
           Option.none, Option.none⟩],
         url⟩) := by
  constructor
  · intro url info u dur sz w hurl hskip hd hfs hw
    simp only [rutube_video_info, hd, except_bind_ok,
      rutubeCollect_all_skipped dur _ hskip]
    rw [if_pos (by simp [hurl])]
    simp [hfs, except_bind_ok, hw, pySortBy, insOne, hurl]
  · intro url info dur sz w hh hkeep hd hfs hw hht
    have hfilter : (info.formats.getD []).filter tiktokKeep = [] := by
      rw [List.filter_eq_nil_iff]
      intro a ha
      simp [hkeep a ha]
    simp only [tiktok_video_info, hd, except_bind_ok, hfilter]
    simp only [hfs, except_bind_ok, hw, hht]

/-- Witness for C8 on concrete Rutube and TikTok fallback payloads. -/
theorem fallback_rendition_single_witness :
    rutube_video_info "https://rutube.ru/video/abc" rutubeFallbackInfo = Except.ok
      ⟨"T", "10", "", "A",
       [⟨"https://rutube.ru/direct", "url720", "mp4", 777, "HD", 10, 1280, 720,
         Option.none, Option.none⟩],
       "https://rutube.ru/video/abc"⟩
    ∧ tiktok_video_info "https://tiktok.com/@u/video/1" tiktokFallbackInfo = Except.ok
      ⟨"T", "10", "", "A",
       [⟨"https://tt.test/direct", "url720", "mp4", 555, "HD", 10, 1280, 720,
         Option.none, Option.none⟩],
       "https://tiktok.com/@u/video/1"⟩ :=
  ⟨fallback_rendition_single.1 "https://rutube.ru/video/abc" rutubeFallbackInfo
      "https://rutube.ru/direct" 10 777 1280 (by decide)
      (by intro f hf
          have hf' : f = ⟨some "https://r.test/hls", some "m3u8", Option.none,
              Option.none, Option.none, Option.none, Option.none, Option.none,
              Option.none⟩ := by
            simpa [rutubeFallbackInfo] using hf
          subst hf'
          exact Or.inr (Or.inr ⟨0, by decide, by decide⟩))
      (by decide) (by decide) (by decide),
   fallback_rendition_single.2 "https://tiktok.com/@u/video/1" tiktokFallbackInfo
      10 555 1280 720 (by decide) (by decide) (by decide) (by decide) (by decide)⟩

/-- The VK skip condition `not f or not f.get('url')` does not depend on the
quality-note field: if the URL is falsy both sides skip, and if the URL is
truthy the dictionary is nonempty with or without the note. -/
theorem vk_skip_cond_ignores_note (g : Option String → Option String) (f : RawFormat) :
    (rawFormatFalsy { f with format_note := g f.format_note } || pyFalsyStrOpt f.url)
      = (rawFormatFalsy f || pyFalsyStrOpt f.url) := by
  obtain ⟨u, e, v, a, hh, w, fs, fa, n⟩ := f
  by_cases hu : pyFalsyStrOpt u = true
  · simp [hu]
  · cases hcu : u with
    | none => simp [pyFalsyStrOpt, hcu] at hu
    | some s => simp [rawFormatFalsy]

/-- The VK collection loop never reads `format_note`: rewriting the note of
every candidate leaves its result unchanged. -/
theorem vkCollect_ignores_notes (g : Option String → Option String) (dur : Int)
    (fs : List RawFormat) :
    vkCollect dur (fs.map fun f => { f with format_note := g f.format_note })
      = vkCollect dur fs := by
  induction fs with
  | nil => rfl
  | cons f fs ih =>
      simp only [List.map_cons, vkCollect, vk_skip_cond_ignores_note g f]
      by_cases hc : (rawFormatFalsy f || pyFalsyStrOpt f.url) = true
      · rw [if_pos hc, if_pos hc]
        exact ih
      · rw [if_neg hc, if_neg hc]
        simp only [ih, safe_get_filesize]

/-- C9 (amended): the VK normalizer performs no quality-token recovery — it
never consults the free-text quality-note field (its output is invariant
under arbitrary rewriting of every candidate's note), and a candidate
without a positive coerced `height` field is skipped outright, so a
heightless candidate whose note contains `"720p"` yields no rendition. -/
theorem vk_no_note_recovery :
    (∀ (url : String) (info : RawInfo) (g : Option String → Option String),
        vk_video_info url (mapFormatNotes g info) = vk_video_info url info)
    ∧ (∀ (url : String) (info : RawInfo) (dur : Int),
        normalize_duration (info.duration.getD (PyVal.int 0)) = Except.ok dur →
        (∀ f ∈ info.formats.getD [], rawFormatFalsy f = true ∨ pyFalsyStrOpt f.url = true ∨
            ∃ hh, safe_int (f.height.getD (PyVal.int 0)) 0 = Except.ok hh ∧ hh ≤ 0) →
        vk_video_info url info = Except.ok
          ⟨info.title.getD "Без названия", toString dur, info.thumbnail.getD "",
           info.uploader.getD "Unknown", [], url⟩) := by
  constructor
  · intro url info g
    have harg : ∀ d : Int,
        vkCollect d ((info.formats.map (List.map fun f =>
            { f with format_note := g f.format_note })).getD [])
          = vkCollect d (info.formats.getD []) := by
      intro d
      cases info.formats with
      | none => rfl
      | some l => exact vkCollect_ignores_notes g d l
    simp only [vk_video_info, mapFormatNotes, harg]
  · intro url info dur hd hskip
    simp only [vk_video_info, hd, except_bind_ok,
      vkCollect_all_skipped dur _ hskip]
    simp [pySortBy]

/-- C9, counterexample: a raw VK candidate with no height field but a
`"720p"` quality note is discarded — the resolved formats list is empty,
not a single 720-tier rendition. -/
theorem vk_note_ignored_cex :
    notedHeightlessFormat.height = Option.none
    ∧ notedHeightlessFormat.format_note = some "720p"
    ∧ vk_video_info "https://vk.com/video1" notedHeightlessInfo
        = Except.ok ⟨"T", "10", "", "A", [], "https://vk.com/video1"⟩ := by
  decide

/-- Witness for C9's amended theorem: erasing the `"720p"` note changes
nothing, and the heightless candidate is skipped. -/
theorem vk_no_note_recovery_witness :
    vk_video_info "https://vk.com/video1"
        (mapFormatNotes (fun _ => Option.none) notedHeightlessInfo)
      = vk_video_info "https://vk.com/video1" notedHeightlessInfo
    ∧ vk_video_info "https://vk.com/video1" notedHeightlessInfo
        = Except.ok ⟨"T", "10", "", "A", [], "https://vk.com/video1"⟩ :=
  ⟨vk_no_note_recovery.1 "https://vk.com/video1" notedHeightlessInfo (fun _ => Option.none),
   vk_no_note_recovery.2 "https://vk.com/video1" notedHeightlessInfo 10 (by decide)
     (by intro f hf
         have hf' : f = notedHeightlessFormat := by
           simpa [notedHeightlessInfo] using hf
         subst hf'
         exact Or.inr (Or.inr ⟨0, by decide, by decide⟩))⟩

/-- Inserting into the sorted prefix is a permutation of consing. -/
theorem insOne_perm {α : Type} (le : α → α → Bool) (x : α) (l : List α) :
    List.Perm (insOne le x l) (x :: l) := by
  induction l with
  | nil => simp [insOne]
  | cons y ys ih =>
      simp only [insOne]
      split
      · exact List.Perm.refl _
      · exact (List.Perm.cons y ih).trans (List.Perm.swap x y ys)

/-- The stable sort is a permutation of its input. -/
theorem pySortBy_perm {α : Type} (le : α → α → Bool) (l : List α) :
    List.Perm (pySortBy le l) l := by
  induction l with
  | nil => simp [pySortBy]
  | cons x xs ih => exact (insOne_perm le x (pySortBy le xs)).trans (List.Perm.cons x ih)

/-- A key the dictionary lookup misses is not among the stored keys. -/
theorem assocFind_none_not_mem (l : List (Int × RawFormat)) (k : Int)
    (h : assocFind l k = Option.none) : k ∉ l.map Prod.fst := by
  induction l with
  | nil => simp
  | cons e rest ih =>
      obtain ⟨k', v⟩ := e
      by_cases hk : k' = k
      · simp [assocFind, hk] at h
      · simp only [assocFind, if_neg hk] at h
        simp only [List.map_cons, List.mem_cons, not_or]
        exact ⟨fun hkk => hk hkk.symm, ih h⟩

/-- In-place update of an existing key leaves the key sequence unchanged. -/
theorem assocUpdate_keys (l : List (Int × RawFormat)) (k : Int) (v : RawFormat) :
    (assocUpdate l k v).map Prod.fst = l.map Prod.fst := by
  induction l with
  | nil => rfl
  | cons e rest ih =>
      obtain ⟨k', v'⟩ := e
      by_cases hk : k' = k
      · simp [assocUpdate, hk]
      · simp [assocUpdate, hk, ih]

/-- The six-entry quality dictionary maps distinct tiers to distinct ids. -/
theorem quality_mapping_inj (x y : Int) (s : String)
    (hx : quality_mapping x = some s) (hy : quality_mapping y = some s) : x = y := by
  unfold quality_mapping at hx hy
  split_ifs at hx hy <;> simp_all <;> (subst hx; exact absurd hy (by decide))

/-- Keys of the YouTube `video_formats` dictionary stay distinct through
the build loop: a new key is appended only when lookup misses, an existing
key is updated in place. -/
theorem ytVideoFormats_keys_nodup (fs : List RawFormat) :
    ∀ (acc l : List (Int × RawFormat)), (acc.map Prod.fst).Nodup →
      ytVideoFormats acc fs = Except.ok l → (l.map Prod.fst).Nodup := by
  induction fs with
  | nil =>
      intro acc l hacc h
      simp only [ytVideoFormats] at h
      exact (Except.ok.inj h) ▸ hacc
  | cons f fs ih =>
      intro acc l hacc h
      simp only [ytVideoFormats] at h
      by_cases hv : f.vcodec.getD "none" = "none"
      · rw [if_pos hv] at h
        exact ih acc l hacc h
      · rw [if_neg hv] at h
        cases hsi : safe_int (f.height.getD (PyVal.int 0)) 0 with
        | error e =>
            rw [hsi, except_bind_error] at h
            exact Except.noConfusion h
        | ok hh =>
            rw [hsi, except_bind_ok] at h
            by_cases hle : hh ≤ 0
            · rw [if_pos hle] at h
              exact ih acc l hacc h
            · rw [if_neg hle] at h
              cases hcur : safe_get_filesize f with
              | error e =>
                  rw [hcur, except_bind_error] at h
                  exact Except.noConfusion h
              | ok cur =>
                  rw [hcur, except_bind_ok] at h
                  cases hfind : assocFind acc hh with
                  | none =>
                      simp only [hfind] at h
                      refine ih _ l ?_ h
                      simp only [List.map_append, List.map_cons, List.map_nil]
                      rw [List.nodup_append]
                      refine ⟨hacc, List.nodup_singleton _, ?_⟩
                      intro a ha hb
                      simp only [List.mem_singleton] at hb
                      exact assocFind_none_not_mem acc hh hfind (hb ▸ ha)
                  | some g =>
                      simp only [hfind] at h
                      cases hgs : safe_get_filesize g with
                      | error e =>
                          rw [hgs, except_bind_error] at h
                          exact Except.noConfusion h
                      | ok gsz =>
                          rw [hgs, except_bind_ok] at h
                          by_cases hlt : gsz < cur
                          · rw [if_pos hlt] at h
                            refine ih _ l ?_ h
                            rw [assocUpdate_keys]
                            exact hacc
                          · rw [if_neg hlt] at h
                            exact ih acc l hacc h

/-- One-step unfolding of the emission loop on the empty list. -/
theorem ytEmit_nil (ba : Option RawFormat) (dur : Int) :
    ytEmit ba dur [] = Except.ok [] := rfl

/-- One-step unfolding of the emission loop on a cons cell. -/
theorem ytEmit_cons (ba : Option RawFormat) (dur hh : Int) (f : RawFormat)
    (rest : List (Int × RawFormat)) :
    ytEmit ba dur ((hh, f) :: rest) = (do
      let fid ← match quality_mapping (closest_quality hh) with
        | some s => Except.ok s
        | Option.none => Except.error PyExn.keyError
      let vsz ← safe_get_filesize f
      let asz ← ytAudioSize ba
      let w ← safe_int (f.width.getD PyVal.none) 0
      let entry : Rendition :=
        { url := f.url.getD "", format_id := fid, ext := f.ext.getD "mp4",
          filesize := vsz + asz, format := toString hh ++ "p", duration := dur,
          width := w, height := hh, vcodec := some (f.vcodec.getD ""),
          acodec := some (f.acodec.getD "") }
      let tail ← ytEmit ba dur rest
      Except.ok (entry :: tail)) := rfl

/-- The YouTube emission loop yields one entry per retained pair, carrying
that pair's height, and every entry's `format_id` is the `quality_mapping`
image of its height's tier. -/
theorem ytEmit_heights_ids (ba : Option RawFormat) (dur : Int)
    (l : List (Int × RawFormat)) :
    ∀ rl, ytEmit ba dur l = Except.ok rl →
      rl.map (fun r => r.height) = l.map Prod.fst
      ∧ ∀ r ∈ rl, quality_mapping (closest_quality r.height) = some r.format_id := by
  induction l with
  | nil =>
      intro rl h
      rw [ytEmit_nil] at h
      obtain rfl := Except.ok.inj h
      exact ⟨rfl, by simp⟩
  | cons p rest ih =>
      obtain ⟨hh, f⟩ := p
      intro rl h
      rw [ytEmit_cons] at h
      cases hqm : quality_mapping (closest_quality hh) with
      | none =>
          simp only [hqm, except_bind_error] at h
          exact Except.noConfusion h
      | some s =>
          simp only [hqm, except_bind_ok] at h
          cases hvsz : safe_get_filesize f with
          | error e =>
              rw [hvsz, except_bind_error] at h
              exact Except.noConfusion h
          | ok vsz =>
              rw [hvsz, except_bind_ok] at h
              cases hasz : ytAudioSize ba with
              | error e =>
                  rw [hasz, except_bind_error] at h
                  exact Except.noConfusion h
              | ok asz =>
                  rw [hasz, except_bind_ok] at h
                  cases hw : safe_int (f.width.getD PyVal.none) 0 with
                  | error e =>
                      rw [hw, except_bind_error] at h
                      exact Except.noConfusion h
                  | ok w =>
                      rw [hw, except_bind_ok] at h
                      cases htl : ytEmit ba dur rest with
                      | error e =>
                          rw [htl, except_bind_error] at h
                          exact Except.noConfusion h
                      | ok tl =>
                          rw [htl, except_bind_ok] at h
                          obtain rfl := Except.ok.inj h
                          obtain ⟨ih1, ih2⟩ := ih tl htl
                          refine ⟨?_, ?_⟩
                          · simp only [List.map_cons, ih1]
                          · intro r hr
                            rcases List.mem_cons.mp hr with rfl | hr'
                            · simpa using hqm
                            · exact ih2 r hr'

/-- Every entry the VK collection loop emits has `format_id` equal to
`"url"` followed by its own raw height. -/
theorem vkCollect_ids (dur : Int) (fs : List RawFormat) :
    ∀ rl, vkCollect dur fs = Except.ok rl →
      ∀ r ∈ rl, r.format_id = "url" ++ toString r.height := by
  induction fs with
  | nil =>
      intro rl h r hr
      simp only [vkCollect] at h
      obtain rfl := Except.ok.inj h
      simp at hr
  | cons f fs ih =>
      intro rl h
      simp only [vkCollect] at h
      by_cases hc : (rawFormatFalsy f || pyFalsyStrOpt f.url) = true
      · rw [if_pos hc] at h
        exact ih rl h
      · rw [if_neg hc] at h
        cases hsi : safe_int (f.height.getD (PyVal.int 0)) 0 with
        | error e =>
            rw [hsi, except_bind_error] at h
            exact Except.noConfusion h
        | ok hh =>
            rw [hsi, except_bind_ok] at h
            by_cases hpos : 0 < hh
            · rw [if_pos hpos] at h
              cases hsz : safe_get_filesize f with
              | error e =>
                  rw [hsz, except_bind_error] at h
                  exact Except.noConfusion h
              | ok sz =>
                  rw [hsz, except_bind_ok] at h
                  cases hw : safe_int (f.width.getD PyVal.none) 0 with
                  | error e =>
                      rw [hw, except_bind_error] at h
                      exact Except.noConfusion h
                  | ok w =>
                      rw [hw, except_bind_ok] at h
                      cases hrest : vkCollect dur fs with
                      | error e =>
                          rw [hrest, except_bind_error] at h
                          exact Except.noConfusion h
                      | ok rest' =>
                          rw [hrest, except_bind_ok] at h
                          obtain rfl := Except.ok.inj h
                          intro r hr
                          rcases List.mem_cons.mp hr with rfl | hr'
                          · rfl
                          · exact ih rest' hrest r hr'
            · rw [if_neg hpos] at h
              exact ih rl h

/-- A successfully resolved YouTube `VideoInfo` is the stable descending
sort of the emission of some retained `video_formats` dictionary. -/
theorem youtube_video_info_shape (url : String) (info : RawInfo) (vi : VideoInfo)
    (h : youtube_video_info url info = Except.ok vi) :
    ∃ ba dur vf fmts,
      ytVideoFormats [] (info.formats.getD []) = Except.ok vf
      ∧ ytEmit ba dur vf = Except.ok fmts
      ∧ vi.formats = pySortBy rendDescLe fmts := by
  simp only [youtube_video_info] at h
  cases hdur : normalize_duration (info.duration.getD (PyVal.int 0)) with
  | error e =>
      rw [hdur, except_bind_error] at h
      exact Except.noConfusion h
  | ok dur =>
      rw [hdur, except_bind_ok] at h
      cases haud : (info.formats.getD []).filter ytIsAudio with
      | nil =>
          simp only [haud, except_bind_ok] at h
          cases hvf : ytVideoFormats [] (info.formats.getD []) with
          | error e =>
              rw [hvf, except_bind_error] at h
              exact Except.noConfusion h
          | ok vf =>
              rw [hvf, except_bind_ok] at h
              cases hfm : ytEmit Option.none dur vf with
              | error e =>
                  rw [hfm, except_bind_error] at h
                  exact Except.noConfusion h
              | ok fmts =>
                  rw [hfm, except_bind_ok] at h
                  obtain rfl := Except.ok.inj h
                  exact ⟨Option.none, dur, vf, fmts, rfl, hfm, rfl⟩
      | cons x xs =>
          simp only [haud] at h
          cases hmb : pyMaxBySize x xs with
          | error e =>
              rw [hmb, except_bind_error] at h
              exact Except.noConfusion h
          | ok b =>
              rw [hmb, except_bind_ok, except_bind_ok] at h
              cases hvf : ytVideoFormats [] (info.formats.getD []) with
              | error e =>
                  rw [hvf, except_bind_error] at h
                  exact Except.noConfusion h
              | ok vf =>
                  rw [hvf, except_bind_ok] at h
                  cases hfm : ytEmit (some b) dur vf with
                  | error e =>
                      rw [hfm, except_bind_error] at h
                      exact Except.noConfusion h
                  | ok fmts =>
                      rw [hfm, except_bind_ok] at h
                      obtain rfl := Except.ok.inj h
                      exact ⟨some b, dur, vf, fmts, rfl, hfm, rfl⟩

/-- A successfully resolved VK `VideoInfo` is the stable descending sort of
the VK collection loop's output. -/
theorem vk_video_info_shape (url : String) (info : RawInfo) (vi : VideoInfo)
    (h : vk_video_info url info = Except.ok vi) :
    ∃ dur fmts,
      vkCollect dur (info.formats.getD []) = Except.ok fmts
      ∧ vi.formats = pySortBy rendDescLe fmts := by
  simp only [vk_video_info] at h
  cases hdur : normalize_duration (info.duration.getD (PyVal.int 0)) with
  | error e =>
      rw [hdur, except_bind_error] at h
      exact Except.noConfusion h
  | ok dur =>
      rw [hdur, except_bind_ok] at h
      cases hcol : vkCollect dur (info.formats.getD []) with
      | error e =>
          rw [hcol, except_bind_error] at h
          exact Except.noConfusion h
      | ok fmts =>
          rw [hcol, except_bind_ok] at h
          obtain rfl := Except.ok.inj h
          exact ⟨dur, fmts, hcol, rfl⟩

/-- C2, counterexample: two raw YouTube candidates of distinct heights 700
and 740 both classify to the 720 tier, and the resolved `VideoInfo` carries
two renditions with the identical `format_id` `url720` — no deduplicator
restores uniqueness before the structure is returned. -/
theorem youtube_duplicate_format_ids_cex :
    (youtube_video_info "https://youtube.com/w" sameTierInfo).map
        (fun vi => vi.formats.map fun r => r.format_id)
      = Except.ok ["url720", "url720"]
    ∧ ¬ (["url720", "url720"] : List String).Nodup := by
  constructor
  · decide
  · decide

/-- C2 (amended): `format_id` uniqueness is NOT guaranteed — no deduplication
of ids happens. What does hold: a resolved YouTube `VideoInfo` has pairwise
distinct rendition heights and each `format_id` is the `quality_mapping`
image of the height's tier, so ids are unique exactly when distinct retained
heights fall into distinct tiers; a resolved VK `VideoInfo` simply echoes
each raw height into `"url{height}"`, so duplicate raw heights yield
duplicate ids. -/
theorem format_id_from_height_no_dedup :
    (∀ (url : String) (info : RawInfo) (vi : VideoInfo),
      youtube_video_info url info = Except.ok vi →
        ((vi.formats.map fun r => r.height).Nodup
         ∧ (∀ r ∈ vi.formats,
              quality_mapping (closest_quality r.height) = some r.format_id)
         ∧ ((∀ a ∈ vi.formats.map (fun r => r.height),
               ∀ b ∈ vi.formats.map (fun r => r.height),
                 closest_quality a = closest_quality b → a = b) →
             (vi.formats.map fun r => r.format_id).Nodup)))
    ∧ (∀ (url : String) (info : RawInfo) (vi : VideoInfo),
      vk_video_info url info = Except.ok vi →
        ∀ r ∈ vi.formats, r.format_id = "url" ++ toString r.height) := by
  constructor
  · intro url info vi hok
    obtain ⟨ba, dur, vf, fmts, hvf, hfm, hform⟩ := youtube_video_info_shape url info vi hok
    obtain ⟨hh1, hh2⟩ := ytEmit_heights_ids ba dur vf fmts hfm
    have hperm : List.Perm (pySortBy rendDescLe fmts) fmts := pySortBy_perm _ _
    have hpermh : List.Perm (vi.formats.map fun r => r.height)
        (fmts.map fun r => r.height) := by
      rw [hform]
      exact hperm.map _
    have hnodupf : (fmts.map fun r => r.height).Nodup := by
      rw [hh1]
      exact ytVideoFormats_keys_nodup _ [] vf (by simp) hvf
    have hnodup : (vi.formats.map fun r => r.height).Nodup :=
      hpermh.nodup_iff.mpr hnodupf
    have hmem : ∀ r ∈ vi.formats, r ∈ fmts := by
      intro r hr
      rw [hform] at hr
      exact hperm.mem_iff.mp hr
    refine ⟨hnodup, fun r hr => hh2 r (hmem r hr), fun hinj => ?_⟩
    have hfid : ∀ r ∈ vi.formats,
        r.format_id = (quality_mapping (closest_quality r.height)).getD "" := by
      intro r hr
      rw [hh2 r (hmem r hr), Option.getD_some]
    have hmapeq : (vi.formats.map fun r => r.format_id)
        = (vi.formats.map fun r => r.height).map
            (fun a => (quality_mapping (closest_quality a)).getD "") := by
      rw [List.map_map]
      exact List.map_congr_left hfid
    rw [hmapeq]
    refine List.Nodup.map_on ?_ hnodup
    intro a ha b hb hg
    obtain ⟨ra, hra, hrae⟩ := List.mem_map.mp ha
    obtain ⟨rb, hrb, hrbe⟩ := List.mem_map.mp hb
    have hqa : quality_mapping (closest_quality a) = some ra.format_id := by
      rw [← hrae]
      exact hh2 ra (hmem ra hra)
    have hqb : quality_mapping (closest_quality b) = some rb.format_id := by
      rw [← hrbe]
      exact hh2 rb (hmem rb hrb)
    rw [hqa, hqb] at hg
    simp only [Option.getD_some] at hg
    exact hinj a ha b hb
      (quality_mapping_inj _ _ _ hqa (by rw [hqb, hg]))
  · intro url info vi hok r hr
    obtain ⟨dur, fmts, hcol, hform⟩ := vk_video_info_shape url info vi hok
    have hmem : r ∈ fmts := by
      rw [hform] at hr
      exact (pySortBy_perm _ _).mem_iff.mp hr
    exact vkCollect_ids dur _ fmts hcol r hmem

/-- Witness for C2's amended theorem on concrete successful YouTube and VK
resolutions. -/
theorem format_id_from_height_no_dedup_witness :
    ((muxedScenarioResolved.formats.map fun r => r.height).Nodup
     ∧ (∀ r ∈ muxedScenarioResolved.formats,
          quality_mapping (closest_quality r.height) = some r.format_id)
     ∧ ((∀ a ∈ muxedScenarioResolved.formats.map (fun r => r.height),
           ∀ b ∈ muxedScenarioResolved.formats.map (fun r => r.height),
             closest_quality a = closest_quality b → a = b) →
         (muxedScenarioResolved.formats.map fun r => r.format_id).Nodup))
    ∧ ∀ r ∈ (⟨"T", "10", "", "A", [], "https://vk.com/video1"⟩ : VideoInfo).formats,
        r.format_id = "url" ++ toString r.height :=
  ⟨format_id_from_height_no_dedup.1 "https://youtube.com/watch?v=x" muxedScenarioInfo
      muxedScenarioResolved (by decide),
   format_id_from_height_no_dedup.2 "https://vk.com/video1" notedHeightlessInfo
      ⟨"T", "10", "", "A", [], "https://vk.com/video1"⟩ (by decide)⟩
